import Mathlib

/-!
Verification development for the policy impact analyzer (src/main.py).

The program compares a policy text against reference strategy documents:
it extracts text from PDFs, builds a TF-IDF representation of the two texts
(scikit-learn TfidfVectorizer with stop_words="english", ngram_range=(1,2),
max_features=1000), computes the cosine similarity of the two vectors,
classifies the score against fixed thresholds, and assembles a text report.

Modelling conventions, documented once here:

* Numbers. The Python program computes with IEEE floats; the intended
  semantics is real arithmetic.  The idf weight used by scikit-learn with
  smooth_idf=True over a 2-document corpus is ln((1+2)/(1+df)) + 1, that is
  exactly 1 for df = 2 and the irrational constant 1 + ln(3/2) for df = 1.
  Because that constant is not representable in a computable ordered field,
  the whole numeric pipeline is parameterised over an arbitrary linear
  ordered commutative ring `α` together with the df=1 idf value `idf1 : α`.
  Every theorem quantifies over `α` and `idf1`, so each covers in particular
  the true instantiation `α := ℝ`, `idf1 := 1 + Real.log (3/2)`.  Witnesses
  instantiate `α := ℤ`, `idf1 := 1`, where the kernel can evaluate.

* Similarity value. scikit-learn l2-normalises each tf-idf row and
  `cosine_similarity` renormalises (a no-op beyond guarding zero rows), so
  the returned scalar is dot(a,b) / (sqrt(dot(a,a)) * sqrt(dot(b,b))) over
  the raw rows, and 0 when either row is zero.  Since square roots do not
  exist in a general ordered ring, the scalar is represented exactly by the
  pair `SimVal.mk n d` with reading n / sqrt d; the zero-row guard makes
  d = 1 in the degenerate case, so d > 0 always.  `SimVal.toReal` gives the
  real reading at `α := ℝ`.  Comparisons with a rational threshold p/q and
  the 2-decimal rendering are carried out on the pair by clearing the square
  root, e.g. n / sqrt d > p/q  iff  n > 0 and p^2 d < q^2 n^2.

* Ranking. numpy argsort is modelled by a stable sort on indices; the
  top-20 slice `argsort()[-20:][::-1]` becomes drop (len-20) then reverse.
  Ranking on the unnormalised rows agrees with ranking on the l2-normalised
  rows because normalisation rescales a row by a positive constant (or
  leaves a zero row zero).

* Failures. Python exceptions are modelled with `Except String`:
  `" ".join` over a page list containing None raises TypeError, and
  TfidfVectorizer.fit_transform raises ValueError on an empty vocabulary;
  both are `Except.error` values in the model.
-/

/-! ### Tokenizer (TfidfVectorizer default token_pattern (?u)\b\w\w+\b, lowercase=True) -/

/-- A word character for the default scikit-learn token pattern: letters,
digits or underscore (ASCII reading of the regex class). -/
def isWordChar (c : Char) : Bool := c.isAlphanum || c = '_'

/-- Maximal runs of word characters in a character list.  The accumulator
holds the current run in reverse. -/
def wordRuns : List Char → List Char → List (List Char)
  | [], acc => if acc.isEmpty then [] else [acc.reverse]
  | c :: rest, acc =>
    if isWordChar c then wordRuns rest (c :: acc)
    else if acc.isEmpty then wordRuns rest []
    else acc.reverse :: wordRuns rest []

/-- Tokens of a string: the input is lowercased, then every maximal run of
word characters of length at least 2 is a token (the regex \b\w\w+\b). -/
def tokenize (s : String) : List String :=
  ((wordRuns (s.data.map Char.toLower) []).filter (fun r => 2 ≤ r.length)).map
    (fun r => String.mk r)

/-- The scikit-learn built-in English stop word list (frozenset
ENGLISH_STOP_WORDS), selected by TfidfVectorizer(stop_words="english"). -/
def english_stop_words : List String :=
  ["a", "about", "above", "across", "after", "afterwards", "again", "against",
   "all", "almost", "alone", "along", "already", "also", "although", "always",
   "am", "among", "amongst", "amoungst", "amount", "an", "and", "another",
   "any", "anyhow", "anyone", "anything", "anyway", "anywhere", "are",
   "around", "as", "at", "back", "be", "became", "because", "become",
   "becomes", "becoming", "been", "before", "beforehand", "behind", "being",
   "below", "beside", "besides", "between", "beyond", "bill", "both",
   "bottom", "but", "by", "call", "can", "cannot", "cant", "co", "con",
   "could", "couldnt", "cry", "de", "describe", "detail", "do", "done",
   "down", "due", "during", "each", "eg", "eight", "either", "eleven",
   "else", "elsewhere", "empty", "enough", "etc", "even", "ever", "every",
   "everyone", "everything", "everywhere", "except", "few", "fifteen",
   "fifty", "fill", "find", "fire", "first", "five", "for", "former",
   "formerly", "forty", "found", "four", "from", "front", "full", "further",
   "get", "give", "go", "had", "has", "hasnt", "have", "he", "hence", "her",
   "here", "hereafter", "hereby", "herein", "hereupon", "hers", "herself",
   "him", "himself", "his", "how", "however", "hundred", "i", "ie", "if",
   "in", "inc", "indeed", "interest", "into", "is", "it", "its", "itself",
   "keep", "last", "latter", "latterly", "least", "less", "ltd", "made",
   "many", "may", "me", "meanwhile", "might", "mill", "mine", "more",
   "moreover", "most", "mostly", "move", "much", "must", "my", "myself",
   "name", "namely", "neither", "never", "nevertheless", "next", "nine",
   "no", "nobody", "none", "noone", "nor", "not", "nothing", "now",
   "nowhere", "of", "off", "often", "on", "once", "one", "only", "onto",
   "or", "other", "others", "otherwise", "our", "ours", "ourselves", "out",
   "over", "own", "part", "per", "perhaps", "please", "put", "rather", "re",
   "same", "see", "seem", "seemed", "seeming", "seems", "serious", "several",
   "she", "should", "show", "side", "since", "sincere", "six", "sixty",
   "so", "some", "somehow", "someone", "something", "sometime", "sometimes",
   "somewhere", "still", "such", "system", "take", "ten", "than", "that",
   "the", "their", "them", "themselves", "then", "thence", "there",
   "thereafter", "thereby", "therefore", "therein", "thereupon", "these",
   "they", "thick", "thin", "third", "this", "those", "though", "three",
   "through", "throughout", "thru", "thus", "to", "together", "too", "top",
   "toward", "towards", "twelve", "twenty", "two", "un", "under", "until",
   "up", "upon", "us", "very", "via", "was", "we", "well", "were", "what",
   "whatever", "when", "whence", "whenever", "where", "whereafter",
   "whereas", "whereby", "wherein", "whereupon", "wherever", "whether",
   "which", "while", "whither", "who", "whoever", "whole", "whom", "whose",
   "why", "will", "with", "within", "without", "would", "yet", "you",
   "your", "yours", "yourself", "yourselves"]

/-- Bigrams of a token list: consecutive pairs joined by a space. -/
def bigramsOf : List String → List String
  | [] => []
  | [_] => []
  | a :: b :: rest => (a ++ " " ++ b) :: bigramsOf (b :: rest)

/-- The terms of one document under ngram_range=(1,2) with English stop
words removed: stop words are filtered from the token stream first, then
unigrams and bigrams are formed from the filtered stream (the order of
operations of scikit-learn _word_ngrams). -/
def termsOf (s : String) : List String :=
  let toks := (tokenize s).filter (fun w => !(english_stop_words.contains w))
  toks ++ bigramsOf toks

/-! ### Codepoint-lexicographic order on strings (Python string comparison,
used by scikit-learn when sorting the vocabulary). -/

/-- Lexicographic comparison of character lists by codepoint. -/
def lexLe : List Char → List Char → Bool
  | [], _ => true
  | _ :: _, [] => false
  | a :: as, b :: bs =>
    if a.toNat < b.toNat then true
    else if b.toNat < a.toNat then false
    else lexLe as bs

/-- Codepoint-lexicographic order on strings. -/
def strLe (s t : String) : Bool := lexLe s.data t.data

/-- `strLe` as a relation, for the sorting lemmas. -/
def strLeRel (s t : String) : Prop := strLe s t = true

instance : DecidableRel strLeRel := fun s t =>
  inferInstanceAs (Decidable (strLe s t = true))

theorem lexLe_total (a b : List Char) : lexLe a b = true ∨ lexLe b a = true := by
  induction a generalizing b with
  | nil => left; rfl
  | cons x as ih =>
    cases b with
    | nil => right; rfl
    | cons y bs =>
      rcases Nat.lt_trichotomy x.toNat y.toNat with h | h | h
      · left; simp [lexLe, h]
      · rcases ih bs with h2 | h2
        · left; simp [lexLe, h, h2]
        · right; simp [lexLe, h.symm, h2]
      · right; simp [lexLe, h]

theorem lexLe_trans {a b c : List Char} (h1 : lexLe a b = true)
    (h2 : lexLe b c = true) : lexLe a c = true := by
  induction a generalizing b c with
  | nil => rfl
  | cons x as ih =>
    cases b with
    | nil => simp [lexLe] at h1
    | cons y bs =>
      cases c with
      | nil => simp [lexLe] at h2
      | cons z cs =>
        simp only [lexLe] at h1 h2 ⊢
        by_cases hxy : x.toNat < y.toNat
        · by_cases hyz : y.toNat < z.toNat
          · simp [Nat.lt_trans hxy hyz]
          · by_cases hzy : z.toNat < y.toNat
            · simp [hyz, hzy] at h2
            · have : y.toNat = z.toNat := Nat.le_antisymm (Nat.le_of_not_lt hzy) (Nat.le_of_not_lt hyz)
              simp [this ▸ hxy]
        · by_cases hyx : y.toNat < x.toNat
          · simp [hxy, hyx] at h1
          · have hxyeq : x.toNat = y.toNat := Nat.le_antisymm (Nat.le_of_not_lt hyx) (Nat.le_of_not_lt hxy)
            simp only [hxy, if_false, hyx, if_true, if_neg (lt_irrefl _)] at h1
            by_cases hyz : y.toNat < z.toNat
            · simp [hxyeq ▸ hyz]
            · by_cases hzy : z.toNat < y.toNat
              · simp [hyz, hzy] at h2
              · simp only [hyz, if_false, hzy, if_neg] at h2
                have hxz : ¬ x.toNat < z.toNat ∨ True := Or.inr trivial
                have h3 : ¬ z.toNat < x.toNat := by omega
                have h4 : ¬ x.toNat < z.toNat := by omega
                simp [h4, h3]
                exact ih (b := bs) (c := cs) (by simpa using h1) (by simpa using h2)

theorem char_toNat_inj {a b : Char} (h : a.toNat = b.toNat) : a = b := by
  apply Char.ext
  apply UInt32.ext
  exact h

theorem lexLe_antisymm {a b : List Char} (h1 : lexLe a b = true)
    (h2 : lexLe b a = true) : a = b := by
  induction a generalizing b with
  | nil =>
    cases b with
    | nil => rfl
    | cons y bs => simp [lexLe] at h2
  | cons x as ih =>
    cases b with
    | nil => simp [lexLe] at h1
    | cons y bs =>
      simp only [lexLe] at h1 h2
      by_cases hxy : x.toNat < y.toNat
      · have : ¬ y.toNat < x.toNat := by omega
        simp [hxy, this] at h2
      · by_cases hyx : y.toNat < x.toNat
        · simp [hxy, hyx] at h1
        · have hx : x.toNat = y.toNat := by omega
          have hc : x = y := char_toNat_inj hx
          simp only [hxy, if_false, hyx, if_neg (lt_irrefl _)] at h1 h2
          have := ih (b := bs) (by simpa [hxy, hyx] using h1) (by simpa [hxy, hyx] using h2)
          rw [hc, this]

instance : IsTotal String strLeRel :=
  ⟨fun s t => lexLe_total s.data t.data⟩

instance : IsTrans String strLeRel :=
  ⟨fun _ _ _ h1 h2 => lexLe_trans h1 h2⟩

instance : IsAntisymm String strLeRel :=
  ⟨fun s t h1 h2 => by
    cases s with
    | mk ds =>
      cases t with
      | mk dt =>
        have : ds = dt := lexLe_antisymm h1 h2
        rw [this]⟩

/-! ### Vocabulary construction (TfidfVectorizer fit over the 2-text corpus) -/

/-- The sorted, duplicate-free vocabulary over the corpus consisting of the
two texts (scikit-learn builds the vocabulary as the sorted set of all
terms of the corpus). -/
def sortedVocab (p d : String) : List String :=
  List.insertionSort strLeRel ((termsOf p ++ termsOf d).dedup)

/-- Total raw count of a term across the 2-text corpus; max_features keeps
the terms with the highest corpus-wide counts. -/
def corpusCount (p d t : String) : ℕ :=
  (termsOf p).count t + (termsOf d).count t

/-- Ranking used to limit the vocabulary to max_features=1000: by corpus
count descending; ties broken alphabetically (numpy argsort on the negated
counts leaves equal counts in vocabulary order, which is alphabetical). -/
def capRel (p d : String) (a b : String) : Prop :=
  corpusCount p d b < corpusCount p d a ∨
    (corpusCount p d a = corpusCount p d b ∧ strLe a b = true)

instance (p d : String) : DecidableRel (capRel p d) := fun _ _ =>
  inferInstanceAs (Decidable (_ ∨ _))

/-- The fitted vocabulary: all corpus terms, sorted, and if more than 1000
terms occur, restricted to the 1000 with the highest corpus counts
(max_features=1000); the kept terms stay in sorted order as in
scikit-learn _limit_features. -/
def keptVocab (p d : String) : List String :=
  let all := sortedVocab p d
  if all.length ≤ 1000 then all
  else
    let top := (List.insertionSort (capRel p d) all).take 1000
    all.filter (fun t => top.contains t)

/-- Document frequency of a term in the 2-text corpus (1 or 2 for any
vocabulary term). -/
def docFreq (p d : String) (t : String) : ℕ :=
  (if 0 < (termsOf p).count t then 1 else 0) +
    (if 0 < (termsOf d).count t then 1 else 0)

/-- Smooth idf over the 2-document corpus: ln((1+2)/(1+df)) + 1, which is
1 when df = 2 and the parameter `idf1` (truly 1 + ln(3/2), irrational)
when df = 1.  Vocabulary terms always have df ≥ 1. -/
def idfOf {α : Type} [LinearOrderedCommRing α] (idf1 : α) (df : ℕ) : α :=
  if df ≤ 1 then idf1 else 1

/-- The raw tf-idf row of document `x` over the vocabulary fitted on the
corpus (p, d): term count times idf.  scikit-learn additionally
l2-normalises the row; the normalisation cancels in the cosine similarity
and preserves the argsort ranking, so the model keeps the raw row. -/
def tfidfRow {α : Type} [LinearOrderedCommRing α] (idf1 : α)
    (p d x : String) : List α :=
  (keptVocab p d).map
    (fun t => ((termsOf x).count t : α) * idfOf idf1 (docFreq p d t))

/-- Dot product of two rows. -/
def dotL {α : Type} [LinearOrderedCommRing α] (a b : List α) : α :=
  (List.zipWith (fun x y => x * y) a b).sum

/-! ### The similarity scalar -/

/-- Exact representation of the cosine similarity scalar: the value is
num / sqrt den (see the file header).  The zero-row guard of
sklearn.metrics.pairwise.cosine_similarity yields `SimVal.mk 0 1`. -/
structure SimVal (α : Type) where
  num : α
  den : α
deriving DecidableEq

/-- The real value of a similarity scalar. -/
noncomputable def SimVal.toReal (v : SimVal ℝ) : ℝ := v.num / Real.sqrt v.den

/-- The comparison value > p/q on the exact scalar, square root cleared:
for q > 0, p ≥ 0 and den > 0, num / sqrt den > p/q iff num > 0 and
p^2 den < q^2 num^2.  Used with the fixed thresholds 3/10, 2/10, 1/10. -/
def SimVal.gtQ {α : Type} [LinearOrderedCommRing α] (v : SimVal α)
    (p q : ℕ) : Bool :=
  decide (0 < v.num ∧ (p : α) ^ 2 * v.den < (q : α) ^ 2 * v.num ^ 2)

/-! ### argsort-based top-20 term extraction -/

/-- Ascending comparison of indices by row weight (numpy argsort order). -/
def weightLe {α : Type} [LinearOrderedCommRing α] (w : List α)
    (i j : ℕ) : Prop :=
  w.getD i 0 ≤ w.getD j 0

instance {α : Type} [LinearOrderedCommRing α] (w : List α) :
    DecidableRel (weightLe w) := fun _ _ =>
  inferInstanceAs (Decidable (_ ≤ _))

instance {α : Type} [LinearOrderedCommRing α] (w : List α) :
    IsTotal ℕ (weightLe w) :=
  ⟨fun _ _ => le_total _ _⟩

instance {α : Type} [LinearOrderedCommRing α] (w : List α) :
    IsTrans ℕ (weightLe w) :=
  ⟨fun _ _ _ h1 h2 => le_trans h1 h2⟩

/-- Indices of the top-20 weights, highest first: the model of
`w.argsort()[-20:][::-1]` (sort indices by weight ascending, keep the last
20, reverse). -/
def topIdx {α : Type} [LinearOrderedCommRing α] (w : List α) : List ℕ :=
  let idx := List.insertionSort (weightLe w) (List.range w.length)
  (idx.drop (idx.length - 20)).reverse

/-- The top-20 terms of a row: vocabulary names at the top-20 indices. -/
def topTermsOf {α : Type} [LinearOrderedCommRing α] (vocab : List String)
    (w : List α) : List String :=
  (topIdx w).map (fun i => vocab.getD i "")

/-! ### compare_policy_to_document -/

/-- The result quadruple of compare_policy_to_document. -/
structure CompareResult (α : Type) where
  similarity : SimVal α
  common_terms : List String
  top_policy_terms : List String
  top_doc_terms : List String
deriving DecidableEq

/-- compare_policy_to_document of src/main.py: fit a TfidfVectorizer
(stop_words="english", ngram_range=(1,2), max_features=1000) on the corpus
consisting of exactly the two texts, take the cosine similarity of the two
rows, and the top-20 term lists of each row with their intersection.
An empty vocabulary makes fit_transform raise ValueError (the code has no
handler), modelled as `Except.error`.  Python builds common_terms as
`list(set(top_policy) & set(top_doc))` whose order is hash-dependent and
unspecified; the model fixes one order, and every theorem about
common_terms is stated via membership only. -/
def compare_policy_to_document (α : Type) [LinearOrderedCommRing α]
    (idf1 : α) (policy_text document_text : String) :
    Except String (CompareResult α) :=
  let vocab := keptVocab policy_text document_text
  if vocab.isEmpty then
    Except.error "empty vocabulary; perhaps the documents only contain stop words"
  else
    let policy_tfidf := tfidfRow idf1 policy_text document_text policy_text
    let doc_tfidf := tfidfRow idf1 policy_text document_text document_text
    let naa := dotL policy_tfidf policy_tfidf
    let nbb := dotL doc_tfidf doc_tfidf
    let similarity : SimVal α :=
      if naa = 0 ∨ nbb = 0 then ⟨0, 1⟩
      else ⟨dotL policy_tfidf doc_tfidf, naa * nbb⟩
    let top_policy_terms := topTermsOf vocab policy_tfidf
    let top_doc_terms := topTermsOf vocab doc_tfidf
    let common_terms := top_policy_terms.filter
      (fun t => top_doc_terms.contains t)
    Except.ok ⟨similarity, common_terms, top_policy_terms, top_doc_terms⟩

/-! ### generate_impact_description (the impact classifier) -/

/-- generate_impact_description of src/main.py: map the similarity score to
an impact level by the fixed strict thresholds 0.3, 0.2, 0.1, and build the
description string (template by level, then the common-term list or the
no-specific-areas fallback, then the fixed closing sentence; Python tests
`if common_terms:`, i.e. nonemptiness).  Returns (impact_level,
description). -/
def generate_impact_description {α : Type} [LinearOrderedCommRing α]
    (similarity : SimVal α) (common_terms : List String) : String × String :=
  let pair :=
    if similarity.gtQ 3 10 then
      ("High Alignment",
       "The proposed policy shows strong alignment with this strategy document.")
    else if similarity.gtQ 2 10 then
      ("Moderate Alignment",
       "The proposed policy shows notable alignment with this strategy document.")
    else if similarity.gtQ 1 10 then
      ("Low Alignment",
       "The proposed policy shows some alignment with this strategy document, but there are likely significant differences.")
    else
      ("Minimal Alignment",
       "The proposed policy shows little alignment with this strategy document.")
  let description :=
    if common_terms.isEmpty then
      pair.2 ++ " No specific areas of alignment were identified."
    else
      pair.2 ++ " Key areas of potential alignment include: " ++
        String.intercalate ", " common_terms ++ "."
  (pair.1,
   description ++
     " Consider how this alignment (or lack thereof) impacts the policy\x27s effectiveness and comprehensiveness.")

/-! ### 2-decimal score formatting (the f-string {similarity:.2f}) -/

/-- The score rounded to hundredths, as an integer number of hundredths:
round(100 * num / sqrt den) with ties to even (Python float formatting
rounds half to even).  The search is capped at 200 hundredths; pipeline
scores lie in [0, 1], i.e. at most 100 hundredths, so the cap is never
reached on pipeline values. -/
def round2 {α : Type} [LinearOrderedCommRing α] (v : SimVal α) : ℕ :=
  let k := ((List.range 201).filter
    (fun k : ℕ => decide ((Nat.cast k : α) ^ 2 * v.den ≤ 10000 * v.num ^ 2))).foldr Nat.max 0
  if ((2 * k + 1 : ℕ) : α) ^ 2 * v.den < 40000 * v.num ^ 2 then k + 1
  else if ((2 * k + 1 : ℕ) : α) ^ 2 * v.den = 40000 * v.num ^ 2 then
    (if k % 2 = 0 then k else k + 1)
  else k

/-- The similarity score formatted with 2 decimal places. -/
def formatScore2 {α : Type} [LinearOrderedCommRing α] (v : SimVal α) : String :=
  let k := round2 v
  toString (k / 100) ++ "." ++
    (if k % 100 < 10 then "0" ++ toString (k % 100) else toString (k % 100))

/-! ### generate_impact_report -/

/-- The first 200 characters of a string (the Python slice
policy_text[:200], code points). -/
def takeChars (s : String) (n : ℕ) : String := String.mk (s.data.take n)

/-- The per-document block appended by one iteration of the report loop of
generate_impact_report: name, impact level, score to 2 decimals,
description, full common-term list, and the top 10 terms of each side. -/
def docSection {α : Type} [LinearOrderedCommRing α]
    (x : String × CompareResult α) : String :=
  let r := x.2
  let idr := generate_impact_description r.similarity r.common_terms
  "- " ++ x.1 ++ ":\n" ++
  "  Impact Level: " ++ idr.1 ++ "\n" ++
  "  Similarity Score: " ++ formatScore2 r.similarity ++ "\n" ++
  "  Description: " ++ idr.2 ++ "\n" ++
  "  Key Aligned Terms: " ++ String.intercalate ", " r.common_terms ++ "\n" ++
  "  Top Policy Terms: " ++ String.intercalate ", " (r.top_policy_terms.take 10) ++ "\n" ++
  "  Top Document Terms: " ++ String.intercalate ", " (r.top_doc_terms.take 10) ++ "\n\n"

/-- generate_impact_report of src/main.py: the fixed header, the truncated
policy preview, the section title, then one block per document in the
iteration order of the results mapping (Python dicts iterate in insertion
order). -/
def generate_impact_report {α : Type} [LinearOrderedCommRing α]
    (policy_text : String)
    (document_similarities : List (String × CompareResult α)) : String :=
  document_similarities.foldl (fun report x => report ++ docSection x)
    ("Policy Impact Analysis Report\n\n" ++
     ("Policy Text: " ++ takeChars policy_text 200 ++ "...\n\n") ++
     "Impact on Strategy Documents:\n")

/-! ### The main analysis pipeline -/

/-- The hardcoded candidate reference documents of main(). -/
def pdf_files : List String :=
  ["Digital Foundations Agriculture Strategy.pdf",
   "National Biosecurity Strategy.pdf",
   "Pacific Biosecurity Strategy.pdf",
   "Threatened Species Strategy.pdf"]

/-- Sequence the per-page extraction results: some list of page texts when
every page yielded text, none as soon as one page yielded None. -/
def joinPages : List (Option String) → Option (List String)
  | [] => some []
  | none :: _ => none
  | some t :: rest => (joinPages rest).map (fun l => t :: l)

/-- extract_text_from_pdf of src/main.py, over the list of per-page
extraction results (pdfplumber page.extract_text() returns None for a page
with no extractable text): `" ".join(...)` raises TypeError when any page
yields None, and otherwise returns the page texts joined by single
spaces. -/
def extract_text_from_pdf (pages : List (Option String)) : Except String String :=
  match joinPages pages with
  | none => Except.error "TypeError: sequence item: expected str instance, NoneType found"
  | some texts => Except.ok (String.intercalate " " texts)

/-- The per-file loop of main(): for each selected file in order, a missing
file produces a warning and is skipped; a present file is extracted and
compared, and its result is inserted into the results mapping in
processing order.  An exception inside extraction or comparison propagates
(the loop has no handler).  The file system is modelled as a partial map
from file name to the list of per-page extraction results. -/
def processFiles (α : Type) [LinearOrderedCommRing α] (idf1 : α)
    (policy_text : String) (fs : String → Option (List (Option String))) :
    List String → Except String (List String × List (String × CompareResult α))
  | [] => Except.ok ([], [])
  | f :: rest =>
    match fs f with
    | none =>
      match processFiles α idf1 policy_text fs rest with
      | Except.error e => Except.error e
      | Except.ok (ws, rs) => Except.ok (("File not found: " ++ f) :: ws, rs)
    | some pages =>
      match extract_text_from_pdf pages with
      | Except.error e => Except.error e
      | Except.ok document_text =>
        match compare_policy_to_document α idf1 policy_text document_text with
        | Except.error e => Except.error e
        | Except.ok r =>
          match processFiles α idf1 policy_text fs rest with
          | Except.error e => Except.error e
          | Except.ok (ws, rs) => Except.ok (ws, (f, r) :: rs)

/-- The observable outcome of one analysis request in main(): either the
request is rejected with a user-facing validation warning and nothing is
computed, or the analysis ran, with its per-file warnings, the results
mapping, the generated report (when at least one document was processed),
and the no-documents error message otherwise. -/
inductive MainOutcome (α : Type) where
  | rejected (warning : String)
  | analyzed (warnings : List String)
      (document_similarities : List (String × CompareResult α))
      (report : Option String) (errorMsg : Option String)

/-- One analysis request of main() in src/main.py.  The selection is the
hardcoded candidate list filtered by the checkbox predicate (checkboxes are
rendered in list order).  An empty selection warns and returns before any
analysis; an empty policy text fails the `if policy_text and selected_files`
guard and warns.  Otherwise each selected file is processed (missing files
warn and are skipped), and the report is generated when the results mapping
is nonempty. -/
def analyzePolicyRequest (α : Type) [LinearOrderedCommRing α] (idf1 : α)
    (sel : String → Bool) (policy_text : String)
    (fs : String → Option (List (Option String))) :
    Except String (MainOutcome α) :=
  let selected_files := pdf_files.filter sel
  if selected_files.isEmpty then
    Except.ok (MainOutcome.rejected "Please select at least one document for analysis.")
  else if policy_text = "" then
    Except.ok (MainOutcome.rejected "Please enter policy text and select at least one document to analyze.")
  else
    match processFiles α idf1 policy_text fs selected_files with
    | Except.error e => Except.error e
    | Except.ok (ws, rs) =>
      if rs.isEmpty then
        Except.ok (MainOutcome.analyzed ws rs none
          (some "No documents could be processed. Please check the selected files and try again."))
      else
        Except.ok (MainOutcome.analyzed ws rs
          (some (generate_impact_report policy_text rs)) none)

/-! ### Real semantics of the exact similarity scalar -/

theorem SimVal.gtQ_iff (v : SimVal ℝ) (p q : ℕ) (hq : 0 < q)
    (hd : 0 < v.den) :
    (v.gtQ p q = true) ↔ ((p : ℝ) / (q : ℝ) < v.toReal) := by
  obtain ⟨n, d⟩ := v
  simp only [SimVal.gtQ, SimVal.toReal, decide_eq_true_eq] at *
  have hq0 : (0 : ℝ) < (q : ℝ) := by exact_mod_cast hq
  have hp0 : (0 : ℝ) ≤ (p : ℝ) := Nat.cast_nonneg p
  have hs : 0 < Real.sqrt d := Real.sqrt_pos.mpr hd
  constructor
  · rintro ⟨hn, hlt⟩
    rw [div_lt_div_iff₀ hq0 hs]
    by_contra hc
    push_neg at hc
    have h2 : (n * (q : ℝ)) ^ 2 ≤ ((p : ℝ) * Real.sqrt d) ^ 2 :=
      pow_le_pow_left₀ (by positivity) hc 2
    have h3 : ((p : ℝ) * Real.sqrt d) ^ 2 = (p : ℝ) ^ 2 * d := by
      rw [mul_pow, Real.sq_sqrt hd.le]
    nlinarith [hlt, h2, h3]
  · intro hlt
    rw [div_lt_div_iff₀ hq0 hs] at hlt
    have hnq : (0 : ℝ) < n * (q : ℝ) :=
      lt_of_le_of_lt (by positivity) hlt
    have hn : 0 < n := by
      rcases mul_pos_iff.mp hnq with ⟨h1, _⟩ | ⟨_, h2⟩
      · exact h1
      · exact absurd hq0 (not_lt.mpr h2.le)
    refine ⟨hn, ?_⟩
    have h2 : ((p : ℝ) * Real.sqrt d) ^ 2 < (n * (q : ℝ)) ^ 2 :=
      pow_lt_pow_left₀ hlt (by positivity) two_ne_zero
    rw [mul_pow, Real.sq_sqrt hd.le] at h2
    nlinarith [h2]

theorem SimVal.toReal_unit (n d : ℝ) (hn : 0 ≤ n) (hd : 0 < d)
    (h : n ^ 2 ≤ d) :
    0 ≤ (SimVal.mk n d).toReal ∧ (SimVal.mk n d).toReal ≤ 1 := by
  have hs : 0 < Real.sqrt d := Real.sqrt_pos.mpr hd
  simp only [SimVal.toReal]
  constructor
  · exact div_nonneg hn hs.le
  · rw [div_le_one hs]
    exact (Real.le_sqrt hn hd.le).mpr h

theorem SimVal.toReal_diag (a : ℝ) (ha : 0 < a) :
    (SimVal.mk a (a * a)).toReal = 1 := by
  simp only [SimVal.toReal]
  rw [Real.sqrt_mul_self ha.le]
  exact div_self (ne_of_gt ha)

/-! ### Claim C1: document-level impact thresholds -/

/-- C1.  For every similarity score, the document-level classifier
generate_impact_description assigns "High Alignment" iff the score exceeds
0.30, "Moderate Alignment" iff it lies in (0.20, 0.30], "Low Alignment"
iff it lies in (0.10, 0.20], and "Minimal Alignment" iff it is at most
0.10; in particular a score of exactly 0.30 yields "Moderate Alignment"
(the thresholds are strict).  The score is an arbitrary similarity value
with positive radicand, read through SimVal.toReal. -/
theorem claim_C1_document_thresholds (v : SimVal ℝ) (ts : List String)
    (hd : 0 < v.den) :
    ((generate_impact_description v ts).1 = "High Alignment" ↔
        (3 : ℝ) / 10 < v.toReal) ∧
    ((generate_impact_description v ts).1 = "Moderate Alignment" ↔
        ((2 : ℝ) / 10 < v.toReal ∧ v.toReal ≤ 3 / 10)) ∧
    ((generate_impact_description v ts).1 = "Low Alignment" ↔
        ((1 : ℝ) / 10 < v.toReal ∧ v.toReal ≤ 2 / 10)) ∧
    ((generate_impact_description v ts).1 = "Minimal Alignment" ↔
        v.toReal ≤ (1 : ℝ) / 10) ∧
    (v.toReal = 3 / 10 →
        (generate_impact_description v ts).1 = "Moderate Alignment") := by
  have g3 : v.gtQ 3 10 = true ↔ (3 : ℝ) / 10 < v.toReal := by
    have := SimVal.gtQ_iff v 3 10 (by norm_num) hd
    simpa using this
  have g2 : v.gtQ 2 10 = true ↔ (2 : ℝ) / 10 < v.toReal := by
    have := SimVal.gtQ_iff v 2 10 (by norm_num) hd
    simpa using this
  have g1 : v.gtQ 1 10 = true ↔ (1 : ℝ) / 10 < v.toReal := by
    have := SimVal.gtQ_iff v 1 10 (by norm_num) hd
    simpa using this
  cases h3 : v.gtQ 3 10 with
  | true =>
    have hx3 : (3 : ℝ) / 10 < v.toReal := g3.mp h3
    have hl : (generate_impact_description v ts).1 = "High Alignment" := by
      simp [generate_impact_description, h3]
    rw [hl]
    refine ⟨⟨fun _ => hx3, fun _ => rfl⟩, ?_, ?_, ?_, ?_⟩
    · exact iff_of_false (by decide) (by rintro ⟨_, hle⟩; linarith)
    · exact iff_of_false (by decide) (by rintro ⟨_, hle⟩; linarith)
    · exact iff_of_false (by decide) (by intro hle; linarith)
    · intro heq; exact absurd hx3 (by rw [heq]; exact lt_irrefl _)
  | false =>
    have hx3 : ¬ ((3 : ℝ) / 10 < v.toReal) := fun hc =>
      absurd (g3.mpr hc) (by simp [h3])
    have hx3le : v.toReal ≤ (3 : ℝ) / 10 := not_lt.mp hx3
    cases h2 : v.gtQ 2 10 with
    | true =>
      have hx2 : (2 : ℝ) / 10 < v.toReal := g2.mp h2
      have hl : (generate_impact_description v ts).1 = "Moderate Alignment" := by
        simp [generate_impact_description, h3, h2]
      rw [hl]
      refine ⟨iff_of_false (by decide) hx3, ⟨fun _ => ⟨hx2, hx3le⟩, fun _ => rfl⟩,
        ?_, ?_, fun _ => rfl⟩
      · exact iff_of_false (by decide) (by rintro ⟨_, hle⟩; linarith)
      · exact iff_of_false (by decide) (by intro hle; linarith)
    | false =>
      have hx2 : ¬ ((2 : ℝ) / 10 < v.toReal) := fun hc =>
        absurd (g2.mpr hc) (by simp [h2])
      have hx2le : v.toReal ≤ (2 : ℝ) / 10 := not_lt.mp hx2
      cases h1 : v.gtQ 1 10 with
      | true =>
        have hx1 : (1 : ℝ) / 10 < v.toReal := g1.mp h1
        have hl : (generate_impact_description v ts).1 = "Low Alignment" := by
          simp [generate_impact_description, h3, h2, h1]
        rw [hl]
        refine ⟨iff_of_false (by decide) hx3,
          iff_of_false (by decide) (by rintro ⟨hgt, _⟩; linarith),
          ⟨fun _ => ⟨hx1, hx2le⟩, fun _ => rfl⟩,
          iff_of_false (by decide) (by intro hle; linarith),
          fun heq => by exfalso; linarith [heq ▸ hx2le]⟩
      | false =>
        have hx1 : ¬ ((1 : ℝ) / 10 < v.toReal) := fun hc =>
          absurd (g1.mpr hc) (by simp [h1])
        have hx1le : v.toReal ≤ (1 : ℝ) / 10 := not_lt.mp hx1
        have hl : (generate_impact_description v ts).1 = "Minimal Alignment" := by
          simp [generate_impact_description, h3, h2, h1]
        rw [hl]
        refine ⟨iff_of_false (by decide) hx3,
          iff_of_false (by decide) (by rintro ⟨hgt, _⟩; linarith),
          iff_of_false (by decide) (by rintro ⟨hgt, _⟩; linarith),
          ⟨fun _ => hx1le, fun _ => rfl⟩,
          fun heq => by exfalso; linarith [heq ▸ hx1le]⟩

/-- Witness for C1 at the boundary score 0.30 (the pair (3/10, 1) reads as
(3/10) / sqrt 1 = 0.30): the hypotheses hold and the classification
follows by applying the theorem. -/
theorem claim_C1_document_thresholds_witness :
    (0 : ℝ) < (SimVal.mk ((3 : ℝ) / 10) 1).den ∧
    ((SimVal.mk ((3 : ℝ) / 10) 1).toReal = 3 / 10 →
      (generate_impact_description (SimVal.mk ((3 : ℝ) / 10) 1) []).1 =
        "Moderate Alignment") :=
  ⟨one_pos, (claim_C1_document_thresholds (SimVal.mk ((3 : ℝ) / 10) 1) []
    one_pos).2.2.2.2⟩

/-! ### Claim C3: the PDF loader crashes on a page with no text -/

/-- C3 (code-bug exhibit).  The spec requires extract_text_from_pdf to
tolerate a page whose extraction yields None and to return the space-joined
text of the remaining pages.  The code `" ".join(page.extract_text() for
page in pdf.pages)` has no None guard, so a null page raises TypeError:
on the page list [some "abc", none, some "def"] the model errors instead
of returning "abc def"; on an all-text page list it does return the
space-joined concatenation in page order. -/
theorem claim_C3_extract_crashes_on_null_page :
    extract_text_from_pdf [some "abc", none, some "def"] =
      Except.error "TypeError: sequence item: expected str instance, NoneType found" ∧
    extract_text_from_pdf [some "abc", some "def"] = Except.ok "abc def" :=
  ⟨rfl, rfl⟩

/-! ### Claim C4: compare_policy_to_document on a degenerate corpus -/

/-- C4 (code-bug exhibit).  The spec requires a degenerate corpus to fall
back to similarity 0 with no common terms.  The code wraps
TfidfVectorizer.fit_transform in no handler: when both texts are empty the
vocabulary is empty and fit_transform raises ValueError (first conjunct,
at the witness instantiation α := ℤ, idf1 := 1).  And in the no-raise
degenerate case of one empty text, the score is indeed 0 but the
common-term list is NOT empty: every vocabulary term has document
frequency 20-slice weight 0 on the empty side, so zero-weight terms fill
its top-20 list and intersect the other side (second conjunct). -/
theorem claim_C4_compare_degenerate_corpus :
    compare_policy_to_document ℤ 1 "" "" =
      Except.error "empty vocabulary; perhaps the documents only contain stop words" ∧
    ∃ r, compare_policy_to_document ℤ 1 "climate farming" "" = Except.ok r ∧
      r.similarity = SimVal.mk 0 1 ∧ r.common_terms ≠ [] :=
  ⟨rfl, ⟨_, rfl, rfl, by decide⟩⟩

/-! ### Dot product lemmas -/

theorem dotL_nil_right {α : Type} [LinearOrderedCommRing α] (a : List α) :
    dotL a [] = 0 := by
  cases a <;> simp [dotL]

theorem dotL_cons {α : Type} [LinearOrderedCommRing α] (x y : α)
    (a b : List α) : dotL (x :: a) (y :: b) = x * y + dotL a b := by
  simp [dotL]

theorem dotL_comm {α : Type} [LinearOrderedCommRing α] (a b : List α) :
    dotL a b = dotL b a := by
  induction a generalizing b with
  | nil => cases b <;> simp [dotL]
  | cons x as ih =>
    cases b with
    | nil => simp [dotL]
    | cons y bs => rw [dotL_cons, dotL_cons, ih, mul_comm]

theorem dotL_self_nonneg {α : Type} [LinearOrderedCommRing α] (a : List α) :
    0 ≤ dotL a a := by
  induction a with
  | nil => simp [dotL]
  | cons x as ih =>
    rw [dotL_cons]
    have := mul_self_nonneg x
    linarith

theorem dotL_nonneg {α : Type} [LinearOrderedCommRing α] (a b : List α)
    (ha : ∀ x ∈ a, 0 ≤ x) (hb : ∀ y ∈ b, 0 ≤ y) : 0 ≤ dotL a b := by
  induction a generalizing b with
  | nil => simp [dotL]
  | cons x as ih =>
    cases b with
    | nil => simp [dotL]
    | cons y bs =>
      rw [dotL_cons]
      have h1 : 0 ≤ x * y :=
        mul_nonneg (ha x (List.mem_cons_self x as)) (hb y (List.mem_cons_self y bs))
      have h2 : 0 ≤ dotL as bs :=
        ih bs (fun z hz => ha z (List.mem_cons_of_mem x hz))
          (fun z hz => hb z (List.mem_cons_of_mem y hz))
      linarith

/-- Cauchy-Schwarz for list dot products. -/
theorem dotL_sq_le {α : Type} [LinearOrderedCommRing α] (a b : List α) :
    (dotL a b) ^ 2 ≤ dotL a a * dotL b b := by
  induction a generalizing b with
  | nil => simp [dotL]
  | cons x as ih =>
    cases b with
    | nil => simp [dotL_nil_right, dotL]
    | cons y bs =>
      rw [dotL_cons, dotL_cons, dotL_cons]
      have hS := ih bs
      have hA := dotL_self_nonneg as
      have hB := dotL_self_nonneg bs
      rcases eq_or_lt_of_le hA with hA0 | hApos
      · have hS0 : dotL as bs = 0 := by
          have h1 : (dotL as bs) ^ 2 ≤ 0 := by rw [← hA0] at hS; linarith [hS, mul_nonneg hB hB]
          have h2 : (0:α) ≤ (dotL as bs) ^ 2 := sq_nonneg _
          have : (dotL as bs) ^ 2 = 0 := le_antisymm (by rw [← hA0] at hS; nlinarith) h2
          exact pow_eq_zero_iff (two_ne_zero) |>.mp this
        rw [hS0, ← hA0]
        nlinarith [mul_nonneg (mul_self_nonneg x) hB]
      · have key : (dotL as as) *
            ((x * x + dotL as as) * (y * y + dotL bs bs) - (x * y + dotL as bs) ^ 2) =
            (x * x) * (dotL as as * dotL bs bs - (dotL as bs) ^ 2) +
            (x * dotL as bs - y * dotL as as) ^ 2 +
            (dotL as as) * (dotL as as * dotL bs bs - (dotL as bs) ^ 2) := by
          ring
        have hpos : 0 ≤ (dotL as as) *
            ((x * x + dotL as as) * (y * y + dotL bs bs) - (x * y + dotL as bs) ^ 2) := by
          rw [key]
          have t1 : 0 ≤ (x * x) * (dotL as as * dotL bs bs - (dotL as bs) ^ 2) :=
            mul_nonneg (mul_self_nonneg x) (by linarith)
          have t2 : 0 ≤ (x * dotL as bs - y * dotL as as) ^ 2 := sq_nonneg _
          have t3 : 0 ≤ (dotL as as) * (dotL as as * dotL bs bs - (dotL as bs) ^ 2) :=
            mul_nonneg hA (by linarith)
          linarith
        nlinarith [hpos, hApos]

theorem dotL_map_self {α : Type} [LinearOrderedCommRing α] (l : List String)
    (f : String → α) :
    dotL (l.map f) (l.map f) = (l.map (fun t => f t * f t)).sum := by
  induction l with
  | nil => simp [dotL]
  | cons t ts ih => simp only [List.map_cons, dotL_cons, List.sum_cons, ih]

theorem list_sum_pos_of_mem {α : Type} [LinearOrderedCommRing α]
    (l : List α) (hall : ∀ x ∈ l, 0 ≤ x) (x : α) (hx : x ∈ l) (hpos : 0 < x) :
    0 < l.sum := by
  induction l with
  | nil => cases hx
  | cons y ys ih =>
    rw [List.sum_cons]
    rcases List.mem_cons.mp hx with rfl | hmem
    · have : 0 ≤ ys.sum := List.sum_nonneg (fun z hz => hall z (List.mem_cons_of_mem _ hz))
      linarith
    · have h1 : 0 ≤ y := hall y (List.mem_cons_self _ _)
      have h2 : 0 < ys.sum := ih (fun z hz => hall z (List.mem_cons_of_mem _ hz)) hmem
      linarith

/-! ### Vocabulary lemmas -/

theorem mem_sortedVocab {p d t : String} :
    t ∈ sortedVocab p d ↔ (t ∈ termsOf p ∨ t ∈ termsOf d) := by
  unfold sortedVocab
  rw [(List.perm_insertionSort strLeRel _).mem_iff, List.mem_dedup,
    List.mem_append]

theorem sortedVocab_nodup (p d : String) : (sortedVocab p d).Nodup :=
  ((List.perm_insertionSort strLeRel _).nodup_iff).mpr (List.nodup_dedup _)

theorem mem_keptVocab {p d t : String} (h : t ∈ keptVocab p d) :
    t ∈ sortedVocab p d := by
  unfold keptVocab at h
  by_cases hlen : (sortedVocab p d).length ≤ 1000
  · simpa [hlen] using h
  · simp only [hlen, if_false] at h
    exact (List.mem_filter.mp h).1

theorem mem_keptVocab_terms {p d t : String} (h : t ∈ keptVocab p d) :
    t ∈ termsOf p ∨ t ∈ termsOf d :=
  mem_sortedVocab.mp (mem_keptVocab h)

theorem keptVocab_nodup (p d : String) : (keptVocab p d).Nodup := by
  unfold keptVocab
  by_cases hlen : (sortedVocab p d).length ≤ 1000
  · simpa [hlen] using sortedVocab_nodup p d
  · simp only [hlen, if_false]
    exact (sortedVocab_nodup p d).filter _

theorem keptVocab_length_le (p d : String) : (keptVocab p d).length ≤ 1000 := by
  unfold keptVocab
  by_cases hlen : (sortedVocab p d).length ≤ 1000
  · simpa [hlen] using hlen
  · simp only [hlen, if_false]
    set all := sortedVocab p d with hall
    set top := (List.insertionSort (capRel p d) all).take 1000 with htop
    have hnd : (all.filter (fun t => top.contains t)).Nodup :=
      (sortedVocab_nodup p d).filter _
    have hsub : (all.filter (fun t => top.contains t)).toFinset ⊆ top.toFinset := by
      intro x hx
      rw [List.mem_toFinset] at hx ⊢
      have := (List.mem_filter.mp hx).2
      simpa using this
    calc (all.filter (fun t => top.contains t)).length
        = (all.filter (fun t => top.contains t)).toFinset.card :=
          (List.toFinset_card_of_nodup hnd).symm
      _ ≤ top.toFinset.card := Finset.card_le_card hsub
      _ ≤ top.length := List.toFinset_card_le top
      _ ≤ 1000 := List.length_take_le _ _

/-! ### topIdx lemmas -/

theorem topIdx_length_le {α : Type} [LinearOrderedCommRing α] (w : List α) :
    (topIdx w).length ≤ 20 := by
  unfold topIdx
  simp only [List.length_reverse, List.length_drop]
  omega

theorem mem_topIdx_lt {α : Type} [LinearOrderedCommRing α] {w : List α}
    {i : ℕ} (h : i ∈ topIdx w) : i < w.length := by
  unfold topIdx at h
  rw [List.mem_reverse] at h
  have h2 := List.mem_of_mem_drop h
  have h3 : i ∈ List.range w.length :=
    ((List.perm_insertionSort _ _).mem_iff).mp h2
  exact List.mem_range.mp h3

theorem topIdx_pairwise {α : Type} [LinearOrderedCommRing α] (w : List α) :
    (topIdx w).Pairwise (fun i j => w.getD j 0 ≤ w.getD i 0) := by
  unfold topIdx
  rw [List.pairwise_reverse]
  have hs : List.Sorted (weightLe w)
      (List.insertionSort (weightLe w) (List.range w.length)) :=
    List.sorted_insertionSort _ _
  have hd : List.Pairwise (weightLe w)
      (List.drop ((List.insertionSort (weightLe w) (List.range w.length)).length - 20)
        (List.insertionSort (weightLe w) (List.range w.length))) :=
    List.Pairwise.sublist (List.drop_sublist _ _) hs
  exact hd.imp (fun h => h)

theorem mem_topTermsOf {α : Type} [LinearOrderedCommRing α]
    {vocab : List String} {w : List α} (hlen : w.length = vocab.length)
    {t : String} (h : t ∈ topTermsOf vocab w) : t ∈ vocab := by
  unfold topTermsOf at h
  rcases List.mem_map.mp h with ⟨i, hi, rfl⟩
  have hlt : i < vocab.length := hlen ▸ mem_topIdx_lt hi
  rw [List.getD_eq_getElem _ _ hlt]
  exact List.getElem_mem _

theorem topTermsOf_length_le {α : Type} [LinearOrderedCommRing α]
    (vocab : List String) (w : List α) : (topTermsOf vocab w).length ≤ 20 := by
  unfold topTermsOf
  rw [List.length_map]
  exact topIdx_length_le w

theorem tfidfRow_length {α : Type} [LinearOrderedCommRing α] (idf1 : α)
    (p d x : String) : (tfidfRow idf1 p d x).length = (keptVocab p d).length :=
  List.length_map _ _

theorem tfidfRow_nonneg {α : Type} [LinearOrderedCommRing α] {idf1 : α}
    (hidf : 0 ≤ idf1) (p d x : String) :
    ∀ y ∈ tfidfRow idf1 p d x, 0 ≤ y := by
  intro y hy
  rcases List.mem_map.mp hy with ⟨t, _, rfl⟩
  apply mul_nonneg (Nat.cast_nonneg _)
  unfold idfOf
  split
  · exact hidf
  · exact zero_le_one

/-! ### Inversion of a successful compare_policy_to_document call -/

theorem compare_ok_eq {α : Type} [LinearOrderedCommRing α] {idf1 : α}
    {p d : String} {r : CompareResult α}
    (h : compare_policy_to_document α idf1 p d = Except.ok r) :
    (keptVocab p d).isEmpty = false ∧
    r = CompareResult.mk
      (if dotL (tfidfRow idf1 p d p) (tfidfRow idf1 p d p) = 0 ∨
          dotL (tfidfRow idf1 p d d) (tfidfRow idf1 p d d) = 0 then SimVal.mk 0 1
        else SimVal.mk (dotL (tfidfRow idf1 p d p) (tfidfRow idf1 p d d))
          (dotL (tfidfRow idf1 p d p) (tfidfRow idf1 p d p) *
            dotL (tfidfRow idf1 p d d) (tfidfRow idf1 p d d)))
      ((topTermsOf (keptVocab p d) (tfidfRow idf1 p d p)).filter
        (fun t => (topTermsOf (keptVocab p d) (tfidfRow idf1 p d d)).contains t))
      (topTermsOf (keptVocab p d) (tfidfRow idf1 p d p))
      (topTermsOf (keptVocab p d) (tfidfRow idf1 p d d)) := by
  rw [compare_policy_to_document] at h
  by_cases hv : (keptVocab p d).isEmpty = true
  · rw [if_pos hv] at h
    cases h
  · rw [if_neg hv] at h
    injection h with h2
    exact ⟨by simpa using hv, h2.symm⟩

/-! ### Claim C2: the contract of compare_policy_to_document -/

/-- C2.  For every policy text and document text on which the fit succeeds,
compare_policy_to_document works over the vocabulary fitted on exactly
these two texts (every vocabulary term is a unigram or bigram of one of
them after stop-word removal, and the vocabulary is capped at 1000
features), returns a similarity scalar lying in [0, 1], and its common
terms are exactly the set intersection of the two top-20 term lists, each
of which ranks at most 20 vocabulary terms by the TF-IDF weight of its own
side in descending order.  The scalar num / sqrt den lies in [0, 1]
because 0 ≤ num, num ^ 2 ≤ den and 0 < den (see SimVal.toReal_unit:
over ℝ these three facts are equivalent to 0 ≤ toReal ≤ 1). -/
theorem claim_C2_compare_contract (α : Type) [LinearOrderedCommRing α]
    (idf1 : α) (p d : String) (r : CompareResult α)
    (hidf : 0 ≤ idf1)
    (h : compare_policy_to_document α idf1 p d = Except.ok r) :
    (0 ≤ r.similarity.num ∧ r.similarity.num ^ 2 ≤ r.similarity.den ∧
      0 < r.similarity.den) ∧
    (∀ t, t ∈ r.common_terms ↔ (t ∈ r.top_policy_terms ∧ t ∈ r.top_doc_terms)) ∧
    r.top_policy_terms.length ≤ 20 ∧ r.top_doc_terms.length ≤ 20 ∧
    (∀ t ∈ r.top_policy_terms, t ∈ keptVocab p d) ∧
    (∀ t ∈ r.top_doc_terms, t ∈ keptVocab p d) ∧
    (keptVocab p d).length ≤ 1000 ∧
    (∀ t ∈ keptVocab p d, t ∈ termsOf p ∨ t ∈ termsOf d) ∧
    (topIdx (tfidfRow idf1 p d p)).Pairwise
      (fun i j => (tfidfRow idf1 p d p).getD j 0 ≤ (tfidfRow idf1 p d p).getD i 0) ∧
    (topIdx (tfidfRow idf1 p d d)).Pairwise
      (fun i j => (tfidfRow idf1 p d d).getD j 0 ≤ (tfidfRow idf1 p d d).getD i 0) := by
  obtain ⟨hv, rfl⟩ := compare_ok_eq h
  dsimp only
  refine ⟨?_, ?_, topTermsOf_length_le _ _, topTermsOf_length_le _ _,
    fun t ht => mem_topTermsOf (tfidfRow_length idf1 p d p) ht,
    fun t ht => mem_topTermsOf (tfidfRow_length idf1 p d d) ht,
    keptVocab_length_le p d, fun t ht => mem_keptVocab_terms ht,
    topIdx_pairwise _, topIdx_pairwise _⟩
  · by_cases hz : dotL (tfidfRow idf1 p d p) (tfidfRow idf1 p d p) = 0 ∨
        dotL (tfidfRow idf1 p d d) (tfidfRow idf1 p d d) = 0
    · rw [if_pos hz]
      refine ⟨le_refl 0, ?_, zero_lt_one⟩
      norm_num
    · rw [if_neg hz]
      push_neg at hz
      have hA := dotL_self_nonneg (tfidfRow idf1 p d p)
      have hB := dotL_self_nonneg (tfidfRow idf1 p d d)
      have hApos : 0 < dotL (tfidfRow idf1 p d p) (tfidfRow idf1 p d p) :=
        lt_of_le_of_ne hA (Ne.symm hz.1)
      have hBpos : 0 < dotL (tfidfRow idf1 p d d) (tfidfRow idf1 p d d) :=
        lt_of_le_of_ne hB (Ne.symm hz.2)
      exact ⟨dotL_nonneg _ _ (tfidfRow_nonneg hidf p d p) (tfidfRow_nonneg hidf p d d),
        dotL_sq_le _ _, mul_pos hApos hBpos⟩
  · intro t
    rw [List.mem_filter]
    constructor
    · rintro ⟨h1, h2⟩
      exact ⟨h1, by simpa using h2⟩
    · rintro ⟨h1, h2⟩
      exact ⟨h1, by simpa using h2⟩

/-- Witness for C2 at α := ℤ, idf1 := 1 on a concrete pair of texts: the
comparison succeeds by evaluation and the contract follows by applying the
theorem. -/
theorem claim_C2_compare_contract_witness :
    ∃ r : CompareResult ℤ,
      compare_policy_to_document ℤ 1 "innovation and farming policy"
          "climate farming policy text" = Except.ok r ∧
      (0 : ℤ) ≤ 1 ∧
      ((0 ≤ r.similarity.num ∧ r.similarity.num ^ 2 ≤ r.similarity.den ∧
        0 < r.similarity.den) ∧
      (∀ t, t ∈ r.common_terms ↔ (t ∈ r.top_policy_terms ∧ t ∈ r.top_doc_terms)) ∧
      r.top_policy_terms.length ≤ 20 ∧ r.top_doc_terms.length ≤ 20 ∧
      (∀ t ∈ r.top_policy_terms,
        t ∈ keptVocab "innovation and farming policy" "climate farming policy text") ∧
      (∀ t ∈ r.top_doc_terms,
        t ∈ keptVocab "innovation and farming policy" "climate farming policy text") ∧
      (keptVocab "innovation and farming policy" "climate farming policy text").length ≤ 1000 ∧
      (∀ t ∈ keptVocab "innovation and farming policy" "climate farming policy text",
        t ∈ termsOf "innovation and farming policy" ∨
          t ∈ termsOf "climate farming policy text") ∧
      (topIdx (tfidfRow (1 : ℤ) "innovation and farming policy"
          "climate farming policy text" "innovation and farming policy")).Pairwise
        (fun i j => (tfidfRow (1 : ℤ) "innovation and farming policy"
            "climate farming policy text" "innovation and farming policy").getD j 0 ≤
          (tfidfRow (1 : ℤ) "innovation and farming policy"
            "climate farming policy text" "innovation and farming policy").getD i 0) ∧
      (topIdx (tfidfRow (1 : ℤ) "innovation and farming policy"
          "climate farming policy text" "climate farming policy text")).Pairwise
        (fun i j => (tfidfRow (1 : ℤ) "innovation and farming policy"
            "climate farming policy text" "climate farming policy text").getD j 0 ≤
          (tfidfRow (1 : ℤ) "innovation and farming policy"
            "climate farming policy text" "climate farming policy text").getD i 0)) :=
  ⟨_, rfl, by norm_num,
    claim_C2_compare_contract ℤ 1 "innovation and farming policy"
      "climate farming policy text" _ (by norm_num) rfl⟩

/-! ### Claim C8: identical texts give similarity 1 -/

/-- C8.  For byte-for-byte identical policy and target texts on which the
fit succeeds (success is exactly non-degeneracy of the vocabulary), the
similarity returned by compare_policy_to_document equals 1: the two rows
coincide, so the scalar is dot(a,a) / sqrt(dot(a,a)^2), i.e. num > 0 and
num ^ 2 = den, which reads as toReal = 1 over ℝ (SimVal.toReal_diag). -/
theorem claim_C8_identical_texts (α : Type) [LinearOrderedCommRing α]
    (idf1 : α) (p : String) (r : CompareResult α)
    (h : compare_policy_to_document α idf1 p p = Except.ok r) :
    0 < r.similarity.num ∧ r.similarity.num ^ 2 = r.similarity.den := by
  obtain ⟨hv, rfl⟩ := compare_ok_eq h
  dsimp only
  have hvne : keptVocab p p ≠ [] := by
    intro hc
    rw [hc] at hv
    simp at hv
  obtain ⟨t0, ht0⟩ := List.exists_mem_of_ne_nil _ hvne
  have htp : t0 ∈ termsOf p := by
    rcases mem_keptVocab_terms ht0 with h1 | h1 <;> exact h1
  have hcount : 0 < (termsOf p).count t0 := List.count_pos_iff.mpr htp
  have hdf : docFreq p p t0 = 2 := by
    unfold docFreq
    rw [if_pos hcount]
  have hidf2 : idfOf idf1 (docFreq p p t0) = 1 := by
    rw [hdf]
    unfold idfOf
    norm_num
  have hentry : (0 : α) <
      ((termsOf p).count t0 : α) * idfOf idf1 (docFreq p p t0) := by
    rw [hidf2, mul_one]
    exact_mod_cast hcount
  have hnaa : 0 < dotL (tfidfRow idf1 p p p) (tfidfRow idf1 p p p) := by
    unfold tfidfRow
    rw [dotL_map_self]
    apply list_sum_pos_of_mem _ _
      (((termsOf p).count t0 : α) * idfOf idf1 (docFreq p p t0) *
        (((termsOf p).count t0 : α) * idfOf idf1 (docFreq p p t0)))
      _ (mul_pos hentry hentry)
    · intro x hx
      rcases List.mem_map.mp hx with ⟨t, _, rfl⟩
      exact mul_self_nonneg _
    · exact List.mem_map_of_mem _ ht0
  have hz : ¬ (dotL (tfidfRow idf1 p p p) (tfidfRow idf1 p p p) = 0 ∨
      dotL (tfidfRow idf1 p p p) (tfidfRow idf1 p p p) = 0) := by
    rintro (hc | hc) <;> exact absurd hc (ne_of_gt hnaa)
  rw [if_neg hz]
  exact ⟨hnaa, sq (dotL (tfidfRow idf1 p p p) (tfidfRow idf1 p p p)) ▸ rfl⟩

/-- Witness for C8 at α := ℤ, idf1 := 1 on a concrete text compared with
itself. -/
theorem claim_C8_identical_texts_witness :
    ∃ r : CompareResult ℤ,
      compare_policy_to_document ℤ 1 "policy farming" "policy farming" =
        Except.ok r ∧
      (0 < r.similarity.num ∧ r.similarity.num ^ 2 = r.similarity.den) :=
  ⟨_, rfl, claim_C8_identical_texts ℤ 1 "policy farming" _ rfl⟩

/-! ### Symmetry of the corpus construction -/

theorem strLe_antisymm {s t : String} (h1 : strLe s t = true)
    (h2 : strLe t s = true) : s = t := by
  cases s with
  | mk ds =>
    cases t with
    | mk dt =>
      have h1d : lexLe ds dt = true := h1
      have h2d : lexLe dt ds = true := h2
      rw [lexLe_antisymm h1d h2d]

theorem strLe_total (s t : String) : strLe s t = true ∨ strLe t s = true :=
  lexLe_total s.data t.data

theorem strLe_trans {s t u : String} (h1 : strLe s t = true)
    (h2 : strLe t u = true) : strLe s u = true := by
  have h1d : lexLe s.data t.data = true := h1
  have h2d : lexLe t.data u.data = true := h2
  exact lexLe_trans h1d h2d

instance (p d : String) : IsTotal String (capRel p d) := by
  constructor
  intro a b
  rcases lt_trichotomy (corpusCount p d a) (corpusCount p d b) with h | h | h
  · right; exact Or.inl h
  · rcases strLe_total a b with hs | hs
    · left; exact Or.inr ⟨h, hs⟩
    · right; exact Or.inr ⟨h.symm, hs⟩
  · left; exact Or.inl h

instance (p d : String) : IsTrans String (capRel p d) := by
  constructor
  intro a b c h1 h2
  rcases h1 with h1 | ⟨e1, s1⟩
  · rcases h2 with h2 | ⟨e2, s2⟩
    · exact Or.inl (by omega)
    · exact Or.inl (by omega)
  · rcases h2 with h2 | ⟨e2, s2⟩
    · exact Or.inl (by omega)
    · exact Or.inr ⟨e1.trans e2, strLe_trans s1 s2⟩

instance (p d : String) : IsAntisymm String (capRel p d) := by
  constructor
  intro a b h1 h2
  rcases h1 with h1 | ⟨e1, s1⟩
  · rcases h2 with h2 | ⟨e2, s2⟩
    · omega
    · omega
  · rcases h2 with h2 | ⟨e2, s2⟩
    · omega
    · exact strLe_antisymm s1 s2

theorem sortedVocab_comm (p d : String) : sortedVocab p d = sortedVocab d p := by
  unfold sortedVocab
  refine List.eq_of_perm_of_sorted ?_
    (List.sorted_insertionSort _ _) (List.sorted_insertionSort _ _)
  exact (List.perm_insertionSort _ _).trans
    ((List.Perm.dedup List.perm_append_comm).trans
      (List.perm_insertionSort _ _).symm)

theorem corpusCount_comm (p d : String) : corpusCount p d = corpusCount d p := by
  funext t
  unfold corpusCount
  exact add_comm _ _

theorem capRel_iff (p d a b : String) : capRel p d a b ↔ capRel d p a b := by
  unfold capRel
  rw [corpusCount_comm p d]

theorem docFreq_comm (p d : String) : docFreq p d = docFreq d p := by
  funext t
  unfold docFreq
  exact add_comm _ _

theorem keptVocab_comm (p d : String) : keptVocab p d = keptVocab d p := by
  simp only [keptVocab]
  rw [sortedVocab_comm p d]
  have hsort : List.insertionSort (capRel p d) (sortedVocab d p) =
      List.insertionSort (capRel d p) (sortedVocab d p) := by
    refine List.eq_of_perm_of_sorted (r := capRel d p) ?_ ?_
      (List.sorted_insertionSort _ _)
    · exact (List.perm_insertionSort _ _).trans
        (List.perm_insertionSort _ _).symm
    · exact (List.sorted_insertionSort (capRel p d) (sortedVocab d p)).imp
        (fun h => (capRel_iff p d _ _).mp h)
  rw [hsort]

theorem tfidfRow_comm {α : Type} [LinearOrderedCommRing α] (idf1 : α)
    (p d x : String) : tfidfRow idf1 p d x = tfidfRow idf1 d p x := by
  unfold tfidfRow
  rw [keptVocab_comm p d, docFreq_comm p d]

/-! ### Claim C9: the similarity scalar is symmetric in the two texts -/

/-- C9.  Swapping the two corpus texts leaves the similarity scalar
unchanged (and the failure behaviour as well): the vocabulary, the
document frequencies and the corpus counts are symmetric in the two texts,
and the cosine numerator and radicand are symmetric by commutativity of
the dot product and of multiplication.  Stated on the two full calls
through Except.toOption, projecting the similarity field. -/
theorem claim_C9_similarity_symmetric (α : Type) [LinearOrderedCommRing α]
    (idf1 : α) (p d : String) :
    (compare_policy_to_document α idf1 p d).toOption.map
      (fun r => r.similarity) =
    (compare_policy_to_document α idf1 d p).toOption.map
      (fun r => r.similarity) := by
  rw [compare_policy_to_document, compare_policy_to_document]
  rw [keptVocab_comm d p, tfidfRow_comm idf1 d p p, tfidfRow_comm idf1 d p d]
  by_cases hv : (keptVocab p d).isEmpty = true
  · rw [if_pos hv, if_pos hv]
  · rw [if_neg hv, if_neg hv]
    simp only [Except.toOption, Option.map]
    by_cases hz : dotL (tfidfRow idf1 p d p) (tfidfRow idf1 p d p) = 0 ∨
        dotL (tfidfRow idf1 p d d) (tfidfRow idf1 p d d) = 0
    · have hz2 : dotL (tfidfRow idf1 p d d) (tfidfRow idf1 p d d) = 0 ∨
          dotL (tfidfRow idf1 p d p) (tfidfRow idf1 p d p) = 0 := hz.symm
      rw [if_pos hz, if_pos hz2]
    · have hz2 : ¬ (dotL (tfidfRow idf1 p d d) (tfidfRow idf1 p d d) = 0 ∨
          dotL (tfidfRow idf1 p d p) (tfidfRow idf1 p d p) = 0) := fun hc =>
        hz hc.symm
      rw [if_neg hz, if_neg hz2, dotL_comm (tfidfRow idf1 p d d) (tfidfRow idf1 p d p),
        mul_comm (dotL (tfidfRow idf1 p d d) (tfidfRow idf1 p d d))
          (dotL (tfidfRow idf1 p d p) (tfidfRow idf1 p d p))]

/-! ### Report decomposition lemmas -/

/-- Concatenation of a list of report sections. -/
def concatSections : List String → String
  | [] => ""
  | s :: rest => s ++ concatSections rest

theorem report_foldl_eq {α : Type} [LinearOrderedCommRing α]
    (l : List (String × CompareResult α)) (s : String) :
    l.foldl (fun report x => report ++ docSection x) s =
      s ++ concatSections (l.map docSection) := by
  induction l generalizing s with
  | nil => simp [concatSections]
  | cons x xs ih =>
    simp only [List.foldl_cons, List.map_cons, concatSections]
    rw [ih, String.append_assoc]

theorem generate_impact_report_eq {α : Type} [LinearOrderedCommRing α]
    (policy_text : String) (l : List (String × CompareResult α)) :
    generate_impact_report policy_text l =
      "Policy Impact Analysis Report\n\n" ++
        ("Policy Text: " ++ takeChars policy_text 200 ++ "...\n\n") ++
        "Impact on Strategy Documents:\n" ++
        concatSections (l.map docSection) := by
  unfold generate_impact_report
  rw [report_foldl_eq]

theorem concatSections_decomp {β : Type} (l : List β) (f : β → String)
    {x : β} (hx : x ∈ l) :
    ∃ pre post, concatSections (l.map f) = pre ++ (f x ++ post) := by
  induction l with
  | nil => cases hx
  | cons y ys ih =>
    rcases List.mem_cons.mp hx with rfl | hmem
    · exact ⟨"", concatSections (ys.map f), by
        simp only [List.map_cons, concatSections]
        rw [String.empty_append]⟩
    · obtain ⟨pre, post, hp⟩ := ih hmem
      refine ⟨f y ++ pre, post, ?_⟩
      simp only [List.map_cons, concatSections]
      rw [hp, String.append_assoc]

/-! ### Claim C7: the structure of the generated report -/

/-- C7.  For every policy text and nonempty results mapping, the report
starts with the fixed header "Policy Impact Analysis Report", followed by
the truncated policy preview (at most 200 characters plus the ellipsis)
and the section title; and for every entry of the mapping the report
contains that document's block: document name, the impact level and
templated description of generate_impact_description, the score formatted
to 2 decimal places, the full common-term list, and the top 10 terms of
each side.  The last conjunct pins the description template: the
common-term list or the none-identified fallback, followed by the fixed
closing sentence. -/
theorem claim_C7_report_structure (α : Type) [LinearOrderedCommRing α]
    (policy_text : String) (sims : List (String × CompareResult α))
    (hne : sims ≠ []) :
    (∃ rest, generate_impact_report policy_text sims =
      "Policy Impact Analysis Report\n\n" ++ rest) ∧
    (∃ rest, generate_impact_report policy_text sims =
      "Policy Impact Analysis Report\n\n" ++
        ("Policy Text: " ++ takeChars policy_text 200 ++ "...\n\n") ++
        "Impact on Strategy Documents:\n" ++ rest) ∧
    (takeChars policy_text 200).length ≤ 200 ∧
    (∀ x ∈ sims, ∃ pre post,
      generate_impact_report policy_text sims =
        pre ++ ("- " ++ x.1 ++ ":\n" ++
          "  Impact Level: " ++
            (generate_impact_description x.2.similarity x.2.common_terms).1 ++ "\n" ++
          "  Similarity Score: " ++ formatScore2 x.2.similarity ++ "\n" ++
          "  Description: " ++
            (generate_impact_description x.2.similarity x.2.common_terms).2 ++ "\n" ++
          "  Key Aligned Terms: " ++ String.intercalate ", " x.2.common_terms ++ "\n" ++
          "  Top Policy Terms: " ++
            String.intercalate ", " (x.2.top_policy_terms.take 10) ++ "\n" ++
          "  Top Document Terms: " ++
            String.intercalate ", " (x.2.top_doc_terms.take 10) ++ "\n\n") ++ post) ∧
    (∀ x ∈ sims,
      (x.2.common_terms = [] → ∃ base,
        (generate_impact_description x.2.similarity x.2.common_terms).2 =
          base ++ " No specific areas of alignment were identified." ++
            " Consider how this alignment (or lack thereof) impacts the policy\x27s effectiveness and comprehensiveness.") ∧
      (x.2.common_terms ≠ [] → ∃ base,
        (generate_impact_description x.2.similarity x.2.common_terms).2 =
          base ++ (" Key areas of potential alignment include: " ++
            String.intercalate ", " x.2.common_terms ++ ".") ++
            " Consider how this alignment (or lack thereof) impacts the policy\x27s effectiveness and comprehensiveness.")) := by
  refine ⟨?_, ?_, ?_, ?_, ?_⟩
  · refine ⟨("Policy Text: " ++ takeChars policy_text 200 ++ "...\n\n") ++
      "Impact on Strategy Documents:\n" ++ concatSections (sims.map docSection), ?_⟩
    rw [generate_impact_report_eq]
    simp only [String.append_assoc]
  · exact ⟨concatSections (sims.map docSection), generate_impact_report_eq _ _⟩
  · unfold takeChars
    calc (String.mk (policy_text.data.take 200)).length
        = (policy_text.data.take 200).length := rfl
      _ ≤ 200 := by
          rw [List.length_take]
          omega
  · intro x hx
    obtain ⟨pre, post, hp⟩ := concatSections_decomp sims docSection hx
    refine ⟨"Policy Impact Analysis Report\n\n" ++
      ("Policy Text: " ++ takeChars policy_text 200 ++ "...\n\n") ++
      "Impact on Strategy Documents:\n" ++ pre, post, ?_⟩
    rw [generate_impact_report_eq, hp]
    simp only [docSection, String.append_assoc]
  · intro x hx
    constructor
    · intro hc
      rw [hc]
      simp only [generate_impact_description, List.isEmpty_nil, if_true]
      exact ⟨_, rfl⟩
    · intro hc
      rcases hl : x.2.common_terms with _ | ⟨y, ys⟩
      · exact absurd hl hc
      · simp only [generate_impact_description, List.isEmpty_cons,
          Bool.false_eq_true, if_false, String.append_assoc]
        exact ⟨_, rfl⟩

/-- Concrete policy text for the C7 witness. -/
def c7policy : String := "Sample agricultural policy"

/-- Concrete results mapping for the C7 witness. -/
def c7sims : List (String × CompareResult ℤ) :=
  [("Strategy.pdf",
    CompareResult.mk (SimVal.mk 1 1) ["farm"] ["farm", "crop"] ["farm", "soil"])]

/-- Witness for C7 at α := ℤ on a one-entry results mapping. -/
theorem claim_C7_report_structure_witness :
    c7sims ≠ [] ∧
    ((∃ rest, generate_impact_report c7policy c7sims =
      "Policy Impact Analysis Report\n\n" ++ rest) ∧
    (∃ rest, generate_impact_report c7policy c7sims =
      "Policy Impact Analysis Report\n\n" ++
        ("Policy Text: " ++ takeChars c7policy 200 ++ "...\n\n") ++
        "Impact on Strategy Documents:\n" ++ rest) ∧
    (takeChars c7policy 200).length ≤ 200 ∧
    (∀ x ∈ c7sims, ∃ pre post,
      generate_impact_report c7policy c7sims =
        pre ++ ("- " ++ x.1 ++ ":\n" ++
          "  Impact Level: " ++
            (generate_impact_description x.2.similarity x.2.common_terms).1 ++ "\n" ++
          "  Similarity Score: " ++ formatScore2 x.2.similarity ++ "\n" ++
          "  Description: " ++
            (generate_impact_description x.2.similarity x.2.common_terms).2 ++ "\n" ++
          "  Key Aligned Terms: " ++ String.intercalate ", " x.2.common_terms ++ "\n" ++
          "  Top Policy Terms: " ++
            String.intercalate ", " (x.2.top_policy_terms.take 10) ++ "\n" ++
          "  Top Document Terms: " ++
            String.intercalate ", " (x.2.top_doc_terms.take 10) ++ "\n\n") ++ post) ∧
    (∀ x ∈ c7sims,
      (x.2.common_terms = [] → ∃ base,
        (generate_impact_description x.2.similarity x.2.common_terms).2 =
          base ++ " No specific areas of alignment were identified." ++
            " Consider how this alignment (or lack thereof) impacts the policy\x27s effectiveness and comprehensiveness.") ∧
      (x.2.common_terms ≠ [] → ∃ base,
        (generate_impact_description x.2.similarity x.2.common_terms).2 =
          base ++ (" Key areas of potential alignment include: " ++
            String.intercalate ", " x.2.common_terms ++ ".") ++
            " Consider how this alignment (or lack thereof) impacts the policy\x27s effectiveness and comprehensiveness."))) :=
  ⟨List.cons_ne_nil _ _,
    claim_C7_report_structure ℤ c7policy c7sims (List.cons_ne_nil _ _)⟩

/-! ### The per-file processing loop -/

theorem processFiles_spec (α : Type) [LinearOrderedCommRing α] (idf1 : α)
    (policy_text : String) (fs : String → Option (List (Option String))) :
    ∀ (selected : List String),
      (∀ f ∈ selected, ∀ pages, fs f = some pages →
        ∃ txt, extract_text_from_pdf pages = Except.ok txt ∧
          ∃ r, compare_policy_to_document α idf1 policy_text txt = Except.ok r) →
      ∃ ws rs, processFiles α idf1 policy_text fs selected = Except.ok (ws, rs) ∧
        ws = (selected.filter (fun f => (fs f).isNone)).map
          (fun f => "File not found: " ++ f) ∧
        rs.map Prod.fst = selected.filter (fun f => (fs f).isSome) := by
  intro selected
  induction selected with
  | nil => exact fun _ => ⟨[], [], rfl, rfl, rfl⟩
  | cons f rest ih =>
    intro hproc
    obtain ⟨ws, rs, hpf, hws, hrs⟩ :=
      ih (fun g hg => hproc g (List.mem_cons_of_mem f hg))
    cases hfs : fs f with
    | none =>
      refine ⟨("File not found: " ++ f) :: ws, rs, ?_, ?_, ?_⟩
      · simp [processFiles, hfs, hpf]
      · rw [List.filter_cons]
        simp only [hfs, Option.isNone_none, if_true, List.map_cons]
        rw [hws]
      · rw [List.filter_cons]
        simp only [hfs, Option.isSome_none, Bool.false_eq_true, if_false]
        exact hrs
    | some pages =>
      obtain ⟨txt, hex, r, hcmp⟩ := hproc f (List.mem_cons_self f rest) pages hfs
      refine ⟨ws, (f, r) :: rs, ?_, ?_, ?_⟩
      · simp [processFiles, hfs, hex, hcmp, hpf]
      · rw [List.filter_cons]
        simp only [hfs, Option.isNone_some, Bool.false_eq_true, if_false]
        exact hws
      · rw [List.filter_cons]
        simp only [hfs, Option.isSome_some, if_true, List.map_cons]
        rw [hrs]

/-! ### Claim C5: missing files warn and are skipped, the run continues -/

/-- C5.  When some selected file is missing, main() does not abort: every
missing selected file contributes a per-file warning, the results mapping
covers exactly the present selected files (each present file is processed),
and the report is generated from those results whenever any document was
processed.  The processability hypothesis says extraction and comparison
succeed on the present files, which is the non-crashing regime of C3/C4. -/
theorem claim_C5_missing_file_skipped (α : Type) [LinearOrderedCommRing α]
    (idf1 : α) (sel : String → Bool) (policy_text : String)
    (fs : String → Option (List (Option String)))
    (hpol : policy_text ≠ "")
    (hsel : pdf_files.filter sel ≠ [])
    (hproc : ∀ f ∈ pdf_files.filter sel, ∀ pages, fs f = some pages →
      ∃ txt, extract_text_from_pdf pages = Except.ok txt ∧
        ∃ r, compare_policy_to_document α idf1 policy_text txt = Except.ok r)
    (hmiss : ∃ f ∈ pdf_files.filter sel, fs f = none) :
    ∃ ws rs rep em,
      analyzePolicyRequest α idf1 sel policy_text fs =
        Except.ok (MainOutcome.analyzed ws rs rep em) ∧
      (∀ f ∈ pdf_files.filter sel, fs f = none →
        ("File not found: " ++ f) ∈ ws) ∧
      rs.map Prod.fst = (pdf_files.filter sel).filter (fun f => (fs f).isSome) ∧
      (rs ≠ [] → rep = some (generate_impact_report policy_text rs)) := by
  obtain ⟨ws, rs, hpf, hws, hrs⟩ :=
    processFiles_spec α idf1 policy_text fs (pdf_files.filter sel) hproc
  have h1 : (pdf_files.filter sel).isEmpty = false := by
    cases hl : pdf_files.filter sel with
    | nil => exact absurd hl hsel
    | cons a l => rfl
  have hwarn : ∀ f ∈ pdf_files.filter sel, fs f = none →
      ("File not found: " ++ f) ∈ ws := by
    intro f hf hnone
    rw [hws]
    apply List.mem_map_of_mem
    rw [List.mem_filter]
    exact ⟨hf, by rw [hnone]; rfl⟩
  simp only [analyzePolicyRequest, h1, Bool.false_eq_true, if_false,
    if_neg hpol, hpf]
  by_cases hrse : rs.isEmpty = true
  · refine ⟨ws, rs, none,
      some "No documents could be processed. Please check the selected files and try again.",
      ?_, hwarn, hrs, ?_⟩
    · rw [if_pos hrse]
    · intro hcon
      exact absurd (List.isEmpty_iff.mp hrse) hcon
  · refine ⟨ws, rs, some (generate_impact_report policy_text rs), none,
      ?_, hwarn, hrs, fun _ => rfl⟩
    rw [if_neg hrse]

/-- Selection for the C5 witness: the first two candidate documents. -/
def c5sel : String → Bool := fun f =>
  f == "Digital Foundations Agriculture Strategy.pdf" ||
    f == "National Biosecurity Strategy.pdf"

/-- File system for the C5 witness: the first candidate is present with one
extractable page, every other file is missing. -/
def c5fs : String → Option (List (Option String)) := fun f =>
  if f = "Digital Foundations Agriculture Strategy.pdf" then
    some [some "climate farming policy text"]
  else none

/-- Witness for C5 at α := ℤ, idf1 := 1: one selected file is present, one
is missing; all hypotheses are discharged by evaluation and the conclusion
follows by applying the theorem. -/
theorem claim_C5_missing_file_skipped_witness :
    (("innovation and farming policy" : String) ≠ "" ∧
     pdf_files.filter c5sel ≠ [] ∧
     (∀ f ∈ pdf_files.filter c5sel, ∀ pages, c5fs f = some pages →
       ∃ txt, extract_text_from_pdf pages = Except.ok txt ∧
         ∃ r, compare_policy_to_document ℤ 1 "innovation and farming policy"
           txt = Except.ok r) ∧
     (∃ f ∈ pdf_files.filter c5sel, c5fs f = none)) ∧
    (∃ ws rs rep em,
      analyzePolicyRequest ℤ 1 c5sel "innovation and farming policy" c5fs =
        Except.ok (MainOutcome.analyzed ws rs rep em) ∧
      (∀ f ∈ pdf_files.filter c5sel, c5fs f = none →
        ("File not found: " ++ f) ∈ ws) ∧
      rs.map Prod.fst =
        (pdf_files.filter c5sel).filter (fun f => (c5fs f).isSome) ∧
      (rs ≠ [] →
        rep = some (generate_impact_report "innovation and farming policy" rs))) := by
  have hpol : ("innovation and farming policy" : String) ≠ "" := by decide
  have hsel : pdf_files.filter c5sel ≠ [] := by decide
  have hfl : pdf_files.filter c5sel =
      ["Digital Foundations Agriculture Strategy.pdf",
       "National Biosecurity Strategy.pdf"] := by decide
  have hproc : ∀ f ∈ pdf_files.filter c5sel, ∀ pages, c5fs f = some pages →
      ∃ txt, extract_text_from_pdf pages = Except.ok txt ∧
        ∃ r, compare_policy_to_document ℤ 1 "innovation and farming policy"
          txt = Except.ok r := by
    intro f hf pages hp
    rw [hfl] at hf
    rcases List.mem_cons.mp hf with rfl | hf2
    · have hD : c5fs "Digital Foundations Agriculture Strategy.pdf" =
        some [some "climate farming policy text"] := rfl
      rw [hD] at hp
      injection hp with hpages
      subst hpages
      exact ⟨_, rfl, _, rfl⟩
    · rcases List.mem_cons.mp hf2 with rfl | hf3
      · have hN : c5fs "National Biosecurity Strategy.pdf" = none := rfl
        rw [hN] at hp
        exact Option.noConfusion hp
      · cases hf3
  have hmiss : ∃ f ∈ pdf_files.filter c5sel, c5fs f = none :=
    ⟨"National Biosecurity Strategy.pdf", by decide, rfl⟩
  exact ⟨⟨hpol, hsel, hproc, hmiss⟩,
    claim_C5_missing_file_skipped ℤ 1 c5sel "innovation and farming policy"
      c5fs hpol hsel hproc hmiss⟩

/-! ### Claim C6: empty policy text or empty selection is rejected -/

/-- C6.  When the policy text is empty or the document selection is empty,
main() rejects the request with a user-facing validation warning and the
analysis does not run: the outcome is `rejected`, which carries no results
and no report (an empty selection warns before the analysis button, an
empty policy text fails the `if policy_text and selected_files` guard). -/
theorem claim_C6_empty_input_rejected (α : Type) [LinearOrderedCommRing α]
    (idf1 : α) (sel : String → Bool) (policy_text : String)
    (fs : String → Option (List (Option String)))
    (h : policy_text = "" ∨ pdf_files.filter sel = []) :
    ∃ w, analyzePolicyRequest α idf1 sel policy_text fs =
      Except.ok (MainOutcome.rejected w) := by
  by_cases hsel : pdf_files.filter sel = []
  · refine ⟨"Please select at least one document for analysis.", ?_⟩
    have h1 : (pdf_files.filter sel).isEmpty = true := by
      rw [hsel]; rfl
    simp [analyzePolicyRequest, h1]
  · have hpol : policy_text = "" := by
      rcases h with h | h
      · exact h
      · exact absurd h hsel
    refine ⟨"Please enter policy text and select at least one document to analyze.", ?_⟩
    have h1 : (pdf_files.filter sel).isEmpty = false := by
      cases hl : pdf_files.filter sel with
      | nil => exact absurd hl hsel
      | cons a l => rfl
    simp [analyzePolicyRequest, h1, hpol]

/-- Witness for C6 at α := ℤ on an empty selection. -/
theorem claim_C6_empty_input_rejected_witness :
    (("some policy text" : String) = "" ∨
      pdf_files.filter (fun _ => false) = []) ∧
    (∃ w, analyzePolicyRequest ℤ 1 (fun _ => false) "some policy text"
      (fun _ => none) = Except.ok (MainOutcome.rejected w)) :=
  ⟨Or.inr rfl,
    claim_C6_empty_input_rejected ℤ 1 (fun _ => false) "some policy text"
      (fun _ => none) (Or.inr rfl)⟩

/-! ### Claim C10: report sections follow the selection order -/

/-- C10.  The per-document sections of the generated report appear in
exactly the order of the hardcoded candidate list restricted to the
selected, existing files: the results mapping is built in processing order
(checkboxes are iterated in candidate order, missing files are skipped),
the report generator iterates that mapping in insertion order, and the
report is the fixed header followed by the concatenation of the
per-document blocks in that exact order. -/
theorem claim_C10_report_order (α : Type) [LinearOrderedCommRing α]
    (idf1 : α) (sel : String → Bool) (policy_text : String)
    (fs : String → Option (List (Option String)))
    (hpol : policy_text ≠ "")
    (hsel : pdf_files.filter sel ≠ [])
    (hproc : ∀ f ∈ pdf_files.filter sel, ∀ pages, fs f = some pages →
      ∃ txt, extract_text_from_pdf pages = Except.ok txt ∧
        ∃ r, compare_policy_to_document α idf1 policy_text txt = Except.ok r)
    (hpresent : ∃ f ∈ pdf_files.filter sel, (fs f).isSome = true) :
    ∃ ws rs,
      analyzePolicyRequest α idf1 sel policy_text fs =
        Except.ok (MainOutcome.analyzed ws rs
          (some ("Policy Impact Analysis Report\n\n" ++
            ("Policy Text: " ++ takeChars policy_text 200 ++ "...\n\n") ++
            "Impact on Strategy Documents:\n" ++
            concatSections (rs.map docSection))) none) ∧
      rs.map Prod.fst = pdf_files.filter (fun f => sel f && (fs f).isSome) := by
  obtain ⟨ws, rs, hpf, hws, hrs⟩ :=
    processFiles_spec α idf1 policy_text fs (pdf_files.filter sel) hproc
  have h1 : (pdf_files.filter sel).isEmpty = false := by
    cases hl : pdf_files.filter sel with
    | nil => exact absurd hl hsel
    | cons a l => rfl
  have hrne : rs ≠ [] := by
    obtain ⟨f, hf, hps⟩ := hpresent
    have hf2 : f ∈ (pdf_files.filter sel).filter (fun f => (fs f).isSome) := by
      rw [List.mem_filter]
      exact ⟨hf, hps⟩
    rw [← hrs] at hf2
    intro hcon
    rw [hcon] at hf2
    cases hf2
  have hrse : rs.isEmpty = false := by
    cases hl : rs with
    | nil => exact absurd hl hrne
    | cons a l => rfl
  have horder : rs.map Prod.fst =
      pdf_files.filter (fun f => sel f && (fs f).isSome) := by
    rw [hrs, List.filter_filter]
    have hfn : (fun a => (fs a).isSome && sel a) =
        (fun f => sel f && (fs f).isSome) := funext fun a => Bool.and_comm _ _
    rw [hfn]
  refine ⟨ws, rs, ?_, horder⟩
  simp only [analyzePolicyRequest, h1, Bool.false_eq_true, if_false,
    if_neg hpol, hpf, hrse]
  rw [generate_impact_report_eq]

/-- Witness for C10 at α := ℤ, idf1 := 1, with the C5 selection and file
system (first candidate present, second missing). -/
theorem claim_C10_report_order_witness :
    (("innovation and farming policy" : String) ≠ "" ∧
     pdf_files.filter c5sel ≠ [] ∧
     (∀ f ∈ pdf_files.filter c5sel, ∀ pages, c5fs f = some pages →
       ∃ txt, extract_text_from_pdf pages = Except.ok txt ∧
         ∃ r, compare_policy_to_document ℤ 1 "innovation and farming policy"
           txt = Except.ok r) ∧
     (∃ f ∈ pdf_files.filter c5sel, (c5fs f).isSome = true)) ∧
    (∃ ws rs,
      analyzePolicyRequest ℤ 1 c5sel "innovation and farming policy" c5fs =
        Except.ok (MainOutcome.analyzed ws rs
          (some ("Policy Impact Analysis Report\n\n" ++
            ("Policy Text: " ++ takeChars "innovation and farming policy" 200 ++
              "...\n\n") ++
            "Impact on Strategy Documents:\n" ++
            concatSections (rs.map docSection))) none) ∧
      rs.map Prod.fst = pdf_files.filter (fun f => c5sel f && (c5fs f).isSome)) := by
  have hpol : ("innovation and farming policy" : String) ≠ "" := by decide
  have hsel : pdf_files.filter c5sel ≠ [] := by decide
  have hfl : pdf_files.filter c5sel =
      ["Digital Foundations Agriculture Strategy.pdf",
       "National Biosecurity Strategy.pdf"] := by decide
  have hproc : ∀ f ∈ pdf_files.filter c5sel, ∀ pages, c5fs f = some pages →
      ∃ txt, extract_text_from_pdf pages = Except.ok txt ∧
        ∃ r, compare_policy_to_document ℤ 1 "innovation and farming policy"
          txt = Except.ok r := by
    intro f hf pages hp
    rw [hfl] at hf
    rcases List.mem_cons.mp hf with rfl | hf2
    · have hD : c5fs "Digital Foundations Agriculture Strategy.pdf" =
        some [some "climate farming policy text"] := rfl
      rw [hD] at hp
      injection hp with hpages
      subst hpages
      exact ⟨_, rfl, _, rfl⟩
    · rcases List.mem_cons.mp hf2 with rfl | hf3
      · have hN : c5fs "National Biosecurity Strategy.pdf" = none := rfl
        rw [hN] at hp
        exact Option.noConfusion hp
      · cases hf3
  have hpresent : ∃ f ∈ pdf_files.filter c5sel, (c5fs f).isSome = true :=
    ⟨"Digital Foundations Agriculture Strategy.pdf", by decide, rfl⟩
  exact ⟨⟨hpol, hsel, hproc, hpresent⟩,
    claim_C10_report_order ℤ 1 c5sel "innovation and farming policy" c5fs
      hpol hsel hproc hpresent⟩

/-- Witness instance of C9 at α := ℤ, idf1 := 1 on two concrete texts. -/
theorem claim_C9_similarity_symmetric_witness :
    (compare_policy_to_document ℤ 1 "climate farming policy"
      "farming innovation").toOption.map (fun r => r.similarity) =
    (compare_policy_to_document ℤ 1 "farming innovation"
      "climate farming policy").toOption.map (fun r => r.similarity) :=
  claim_C9_similarity_symmetric ℤ 1 "climate farming policy"
    "farming innovation"
